import Mathlib

/-!
Verification of the organelle taxonomy supplementation transform.

The transform reads two FASTA record collections (a Metaxa2 SSU extraction
and the PhytoRef plastid reference), filters and relabels the records, and
writes one combined FASTA file plus two tab separated taxonomy mapping
files (Silva and Greengenes naming conventions).  The loop is modelled as
a pure fold over the two record lists; each output file is modelled as the
string of bytes written to it.
-/

namespace OrganelleRemoval

/-- A FASTA sequence record: a free text description and a nucleotide
sequence, as produced by the FASTA reader. -/
structure SeqRecord where
  description : String
  seq : String
deriving DecidableEq

/-- Model of testing whether the pattern list is an initial segment of the
other list, used to model substring search. -/
def startsWithChars : List Char → List Char → Bool
  | [], _ => true
  | _ :: _, [] => false
  | p :: ps, c :: cs => p = c && startsWithChars ps cs

/-- Model of substring search: the pattern occurs contiguously at some
offset of the list. -/
def containsChars (pat : List Char) : List Char → Bool
  | [] => startsWithChars pat []
  | c :: cs => startsWithChars pat (c :: cs) || containsChars pat cs

/-- Model of the Python membership test on strings, substring
containment. -/
def pyIn (pat s : String) : Bool := containsChars pat.data s.data

/-- Model of the Python split of a string on a single character
separator: the list of maximal separator free segments, with empty
segments kept. -/
def splitOnChar (c : Char) : List Char → List (List Char)
  | [] => [[]]
  | x :: xs =>
    let r := splitOnChar c xs
    if x = c then [] :: r
    else (x :: r.headD []) :: r.tail

/-- Model of the Python expression that splits a string on a one character
separator and takes the last field. -/
def lastFieldOn (c : Char) (s : String) : String :=
  String.mk ((splitOnChar c s.data).getLastD [])

/-- The decimal digit characters. -/
def digitChar : Nat → Char
  | 0 => '0'
  | 1 => '1'
  | 2 => '2'
  | 3 => '3'
  | 4 => '4'
  | 5 => '5'
  | 6 => '6'
  | 7 => '7'
  | 8 => '8'
  | _ => '9'

/-- Fuel indexed decimal rendering of a positive natural number, most
significant digit first.  The first argument is fuel; any fuel at least
the number itself is enough. -/
def decChars : Nat → Nat → List Char
  | 0, _ => []
  | _ + 1, 0 => []
  | f + 1, n + 1 => decChars f ((n + 1) / 10) ++ [digitChar ((n + 1) % 10)]

/-- Decimal digit list of a natural number, empty for zero. -/
def decRep (n : Nat) : List Char := decChars n n

/-- Model of the Python decimal rendering of a natural number. -/
def pyStr (n : Nat) : String :=
  if n = 0 then "0" else String.mk (decRep n)

/-- The three output files of one run, each modelled as the full string
written to it: the Silva convention taxonomy mapping, the Greengenes
convention taxonomy mapping, and the combined organelle FASTA. -/
structure OutFiles where
  silva : String
  gg : String
  fasta : String
deriving DecidableEq

/-- The state of the three files after opening them and writing the
header row to each taxonomy mapping file, before either loop runs. -/
def initFiles : OutFiles :=
  { silva := "Feature ID\tTaxon\n", gg := "Feature ID\tTaxon\n", fasta := "" }

/-- One iteration of the mitochondria loop body: given the current file
contents and one enumerated record of the Metaxa2 input, perform the
writes of the loop body, or nothing when the description contains neither
of the two filter substrings. -/
def mitoWrite (acc : OutFiles) (p : Nat × SeqRecord) : OutFiles :=
  if pyIn "mitochondria" p.2.description || pyIn "Mitochondria" p.2.description then
    { silva := acc.silva ++ ("metaxa2_mitochondria_" ++ pyStr p.1 ++ "\td__Bacteria; p__Proteobacteria; c__Alphaproteobacteria; o__Rickettsiales; f__Mitochondria; g__Mitochondria; s__" ++ lastFieldOn ';' p.2.description ++ "\n")
      gg := acc.gg ++ ("metaxa2_mitochondria_" ++ pyStr p.1 ++ "\tk__Bacteria; p__Proteobacteria; c__Alphaproteobacteria; o__Rickettsiales; f__mitochondria; g__Mitochondria; s__" ++ lastFieldOn ';' p.2.description ++ "\n")
      fasta := acc.fasta ++ ((">metaxa2_mitochondria_" ++ pyStr p.1 ++ "\n") ++ (p.2.seq ++ "\n")) }
  else acc

/-- One iteration of the chloroplast loop body: given the current file
contents and one enumerated record of the PhytoRef input, perform the
writes of the loop body, or nothing when the sequence contains the
placeholder substring. -/
def chloroWrite (acc : OutFiles) (p : Nat × SeqRecord) : OutFiles :=
  if !(pyIn "XXXXXXXXXX" p.2.seq) then
    { silva := acc.silva ++ ("phytoref_chloroplast_" ++ pyStr p.1 ++ "\td__Bacteria; p__Cyanobacteria; c__Cyanobacteriia; o__Chloroplast; f__Chloroplast; g__Chloroplast; s__" ++ lastFieldOn '|' p.2.description ++ "\n")
      gg := acc.gg ++ ("phytoref_chloroplast_" ++ pyStr p.1 ++ "\tk__Bacteria; p__Cyanobacteria; c__Chloroplast; o__Chloroplast; f__Chloroplast; g__Chloroplast; s__" ++ lastFieldOn '|' p.2.description ++ "\n")
      fasta := acc.fasta ++ ((">phytoref_chloroplast_" ++ pyStr p.1 ++ "\n") ++ (p.2.seq ++ "\n")) }
  else acc

/-- The whole supplementation transform: write the two header rows, run
the enumerated mitochondria loop, then the enumerated chloroplast loop. -/
def supplement (mito chloro : List SeqRecord) : OutFiles :=
  chloro.enum.foldl chloroWrite (mito.enum.foldl mitoWrite initFiles)

/-- The mitochondria retention test of the loop. -/
def mitoKeep (r : SeqRecord) : Bool :=
  pyIn "mitochondria" r.description || pyIn "Mitochondria" r.description

/-- The chloroplast retention test of the loop. -/
def chloroKeep (r : SeqRecord) : Bool :=
  !(pyIn "XXXXXXXXXX" r.seq)

/-- The retained mitochondria records paired with their zero based
position among all records of the Metaxa2 input. -/
def mitoRetained (mito : List SeqRecord) : List (Nat × SeqRecord) :=
  mito.enum.filter fun p => mitoKeep p.2

/-- The retained chloroplast records paired with their zero based
position among all records of the PhytoRef input. -/
def chloroRetained (chloro : List SeqRecord) : List (Nat × SeqRecord) :=
  chloro.enum.filter fun p => chloroKeep p.2

/-- The synthetic feature identifier of the mitochondria record at source
position i. -/
def mitoId (i : Nat) : String := "metaxa2_mitochondria_" ++ pyStr i

/-- The synthetic feature identifier of the chloroplast record at source
position i. -/
def chloroId (i : Nat) : String := "phytoref_chloroplast_" ++ pyStr i

/-- The species field of a mitochondria record: last field of the
description split on the semicolon. -/
def mitoSpecific (r : SeqRecord) : String := lastFieldOn ';' r.description

/-- The species field of a chloroplast record: last field of the
description split on the vertical bar. -/
def chloroSpecific (r : SeqRecord) : String := lastFieldOn '|' r.description

/-- The fixed Silva convention rank string for mitochondria rows, ending
just before the species field. -/
def silvaMitoRank : String :=
  "d__Bacteria; p__Proteobacteria; c__Alphaproteobacteria; o__Rickettsiales; f__Mitochondria; g__Mitochondria; s__"

/-- The fixed Greengenes convention rank string for mitochondria rows. -/
def ggMitoRank : String :=
  "k__Bacteria; p__Proteobacteria; c__Alphaproteobacteria; o__Rickettsiales; f__mitochondria; g__Mitochondria; s__"

/-- The fixed Silva convention rank string for chloroplast rows. -/
def silvaChloroRank : String :=
  "d__Bacteria; p__Cyanobacteria; c__Cyanobacteriia; o__Chloroplast; f__Chloroplast; g__Chloroplast; s__"

/-- The fixed Greengenes convention rank string for chloroplast rows. -/
def ggChloroRank : String :=
  "k__Bacteria; p__Cyanobacteria; c__Chloroplast; o__Chloroplast; f__Chloroplast; g__Chloroplast; s__"

/-- The header row written to each taxonomy mapping file. -/
def tsvHeader : String := "Feature ID\tTaxon\n"

/-- The FASTA text written for one retained mitochondria record. -/
def fastaChunkM (p : Nat × SeqRecord) : String :=
  (">metaxa2_mitochondria_" ++ pyStr p.1 ++ "\n") ++ (p.2.seq ++ "\n")

/-- The FASTA text written for one retained chloroplast record. -/
def fastaChunkC (p : Nat × SeqRecord) : String :=
  (">phytoref_chloroplast_" ++ pyStr p.1 ++ "\n") ++ (p.2.seq ++ "\n")

/-- The Silva mapping row written for one retained mitochondria record. -/
def silvaRowM (p : Nat × SeqRecord) : String :=
  "metaxa2_mitochondria_" ++ pyStr p.1 ++ "\td__Bacteria; p__Proteobacteria; c__Alphaproteobacteria; o__Rickettsiales; f__Mitochondria; g__Mitochondria; s__" ++ lastFieldOn ';' p.2.description ++ "\n"

/-- The Greengenes mapping row written for one retained mitochondria
record. -/
def ggRowM (p : Nat × SeqRecord) : String :=
  "metaxa2_mitochondria_" ++ pyStr p.1 ++ "\tk__Bacteria; p__Proteobacteria; c__Alphaproteobacteria; o__Rickettsiales; f__mitochondria; g__Mitochondria; s__" ++ lastFieldOn ';' p.2.description ++ "\n"

/-- The Silva mapping row written for one retained chloroplast record. -/
def silvaRowC (p : Nat × SeqRecord) : String :=
  "phytoref_chloroplast_" ++ pyStr p.1 ++ "\td__Bacteria; p__Cyanobacteria; c__Cyanobacteriia; o__Chloroplast; f__Chloroplast; g__Chloroplast; s__" ++ lastFieldOn '|' p.2.description ++ "\n"

/-- The Greengenes mapping row written for one retained chloroplast
record. -/
def ggRowC (p : Nat × SeqRecord) : String :=
  "phytoref_chloroplast_" ++ pyStr p.1 ++ "\tk__Bacteria; p__Cyanobacteria; c__Chloroplast; o__Chloroplast; f__Chloroplast; g__Chloroplast; s__" ++ lastFieldOn '|' p.2.description ++ "\n"

/-- Concatenation of a list of strings in order. -/
def concatAll : List String → String
  | [] => ""
  | s :: ss => s ++ concatAll ss

/-- The FASTA file as a list, one text chunk per retained record, all
mitochondria entries before all chloroplast entries. -/
def fastaEntries (mito chloro : List SeqRecord) : List String :=
  (mitoRetained mito).map fastaChunkM ++ (chloroRetained chloro).map fastaChunkC

/-- The data rows of the Silva mapping file, one per retained record, in
output order. -/
def silvaRows (mito chloro : List SeqRecord) : List String :=
  (mitoRetained mito).map silvaRowM ++ (chloroRetained chloro).map silvaRowC

/-- The data rows of the Greengenes mapping file, one per retained
record, in output order. -/
def ggRows (mito chloro : List SeqRecord) : List String :=
  (mitoRetained mito).map ggRowM ++ (chloroRetained chloro).map ggRowC

/-- The sequence of synthetic feature identifiers of one run, in output
order. -/
def featureIds (mito chloro : List SeqRecord) : List String :=
  (mitoRetained mito).map (fun p => mitoId p.1) ++
    (chloroRetained chloro).map (fun p => chloroId p.1)

/-- The taxonomy labels of the Silva mapping rows, in output order, each
with its trailing newline. -/
def silvaTaxa (mito chloro : List SeqRecord) : List String :=
  (mitoRetained mito).map (fun p => silvaMitoRank ++ mitoSpecific p.2 ++ "\n") ++
    (chloroRetained chloro).map (fun p => silvaChloroRank ++ chloroSpecific p.2 ++ "\n")

/-- The taxonomy labels of the Greengenes mapping rows, in output order,
each with its trailing newline. -/
def ggTaxa (mito chloro : List SeqRecord) : List String :=
  (mitoRetained mito).map (fun p => ggMitoRank ++ mitoSpecific p.2 ++ "\n") ++
    (chloroRetained chloro).map (fun p => ggChloroRank ++ chloroSpecific p.2 ++ "\n")

/-- The mitochondria example record of the specification. -/
def exampleMitoRec : SeqRecord :=
  { description := "accession123;Eukaryota;...;Mitochondria;Homo sapiens", seq := "ACGT" }

/-- A record whose description has no semicolon and no vertical bar. -/
def noDelimRec : SeqRecord := { description := "Homo sapiens", seq := "ACGT" }

/-- A record whose description contains neither mitochondria filter
substring. -/
def dropMitoRec : SeqRecord :=
  { description := "accession9;Bacteria;Escherichia coli", seq := "ACGT" }

/-- A record whose sequence contains the degenerate placeholder
substring. -/
def dropChloroRec : SeqRecord :=
  { description := "AB12345|Chlorophyta|Ulva", seq := "ACGTXXXXXXXXXXACGT" }

/-- Splitting on a character that does not occur yields the whole list as
the single segment. -/
theorem splitOnChar_of_not_mem (c : Char) (l : List Char) (h : c ∉ l) :
    splitOnChar c l = [l] := by
  induction l with
  | nil => rfl
  | cons x xs ih =>
    rw [List.mem_cons, not_or] at h
    show (let r := splitOnChar c xs;
      if x = c then [] :: r else (x :: r.headD []) :: r.tail) = [x :: xs]
    rw [ih h.2]
    have hx : ¬x = c := fun hxc => h.1 hxc.symm
    simp [hx]

/-- The fuel argument of the decimal rendering is irrelevant once it is at
least the number being rendered. -/
theorem decChars_fuel_eq (f1 : Nat) : ∀ (f2 n : Nat), n ≤ f1 → n ≤ f2 →
    decChars f1 n = decChars f2 n := by
  induction f1 with
  | zero =>
    intro f2 n h1 _
    have hn : n = 0 := Nat.le_zero.mp h1
    subst hn
    cases f2 <;> rfl
  | succ a ih =>
    intro f2 n h1 h2
    cases n with
    | zero => cases f2 <;> rfl
    | succ m =>
      cases f2 with
      | zero => omega
      | succ b =>
        show decChars a ((m + 1) / 10) ++ [digitChar ((m + 1) % 10)] =
          decChars b ((m + 1) / 10) ++ [digitChar ((m + 1) % 10)]
        rw [ih b ((m + 1) / 10) (by omega) (by omega)]

/-- Unfolding equation of the decimal digit list of a positive number. -/
theorem decRep_eq (n : Nat) (h : n ≠ 0) :
    decRep n = decRep (n / 10) ++ [digitChar (n % 10)] := by
  cases n with
  | zero => exact absurd rfl h
  | succ m =>
    show decChars m ((m + 1) / 10) ++ [digitChar ((m + 1) % 10)] = _
    rw [decRep, decChars_fuel_eq m ((m + 1) / 10) ((m + 1) / 10) (by omega) (le_refl _)]

/-- The decimal digit list of a positive number is nonempty. -/
theorem decRep_ne_nil (n : Nat) (h : n ≠ 0) : decRep n ≠ [] := by
  rw [decRep_eq n h]
  simp

/-- The digit characters are pairwise distinct below ten. -/
theorem digitChar_inj_lt : ∀ a, a < 10 → ∀ b, b < 10 →
    digitChar a = digitChar b → a = b := by decide

/-- The decimal digit list determines the number. -/
theorem decRep_injective : ∀ (m n : Nat), decRep m = decRep n → m = n := by
  intro m
  induction m using Nat.strong_induction_on with
  | _ m ih =>
    intro n h
    by_cases hm : m = 0
    · subst hm
      by_cases hn : n = 0
      · exact hn.symm
      · exact absurd h.symm (decRep_ne_nil n hn)
    · by_cases hn : n = 0
      · subst hn
        exact absurd h (decRep_ne_nil m hm)
      · rw [decRep_eq m hm, decRep_eq n hn] at h
        obtain ⟨h1, h2⟩ := List.append_inj' h rfl
        simp only [List.cons.injEq, and_true] at h2
        have hd : m % 10 = n % 10 :=
          digitChar_inj_lt _ (Nat.mod_lt m (by omega)) _ (Nat.mod_lt n (by omega)) h2
        have hq : m / 10 = n / 10 := ih (m / 10) (by omega) (n / 10) h1
        omega

/-- The only number whose digit list is the single zero digit is zero
itself, hence the positive branch never collides with the zero case. -/
theorem decRep_single_zero (n : Nat) (h : decRep n = ['0']) : n = 0 := by
  by_contra hn
  rw [decRep_eq n hn] at h
  have hlen := congrArg List.length h
  simp at hlen
  have hnil : decRep (n / 10) = [] := hlen
  have hq : n / 10 = 0 := by
    by_contra hq
    exact decRep_ne_nil (n / 10) hq hnil
  rw [hnil] at h
  simp at h
  have hr : n % 10 = 0 :=
    digitChar_inj_lt _ (Nat.mod_lt n (by omega)) 0 (by omega) h
  omega

/-- The decimal rendering is injective. -/
theorem pyStr_injective : Function.Injective pyStr := by
  intro m n h
  rw [pyStr, pyStr] at h
  by_cases hm : m = 0 <;> by_cases hn : n = 0
  · omega
  · rw [if_pos hm, if_neg hn] at h
    have hd : ("0" : String).data = decRep n := congrArg String.data h
    exact absurd (decRep_single_zero n hd.symm) hn
  · rw [if_neg hm, if_pos hn] at h
    have hd : ("0" : String).data = decRep m := congrArg String.data h.symm
    exact absurd (decRep_single_zero m hd.symm) hm
  · rw [if_neg hm, if_neg hn] at h
    exact decRep_injective m n (congrArg String.data h)

/-- Mitochondria identifiers of distinct source positions are distinct. -/
theorem mitoId_injective : Function.Injective mitoId := by
  intro a b h
  have hd := congrArg String.data h
  rw [mitoId, mitoId, String.data_append, String.data_append] at hd
  exact pyStr_injective (String.ext (List.append_cancel_left hd))

/-- Chloroplast identifiers of distinct source positions are distinct. -/
theorem chloroId_injective : Function.Injective chloroId := by
  intro a b h
  have hd := congrArg String.data h
  rw [chloroId, chloroId, String.data_append, String.data_append] at hd
  exact pyStr_injective (String.ext (List.append_cancel_left hd))

/-- A mitochondria identifier never equals a chloroplast identifier, as
the two literal tags differ at the first character. -/
theorem mitoId_ne_chloroId (i j : Nat) : mitoId i ≠ chloroId j := by
  intro h
  have h1 : (mitoId i).data.head? = (chloroId j).data.head? := by rw [h]
  have hm : (mitoId i).data.head? = some 'm' := rfl
  have hp : (chloroId j).data.head? = some 'p' := rfl
  rw [hm, hp] at h1
  exact absurd h1 (by decide)

/-- The mitochondria loop body as a conditional append of one row to each
output file. -/
theorem mitoWrite_eq (acc : OutFiles) (p : Nat × SeqRecord) :
    mitoWrite acc p =
      if mitoKeep p.2 then
        { silva := acc.silva ++ silvaRowM p
          gg := acc.gg ++ ggRowM p
          fasta := acc.fasta ++ fastaChunkM p }
      else acc := rfl

/-- The chloroplast loop body as a conditional append of one row to each
output file. -/
theorem chloroWrite_eq (acc : OutFiles) (p : Nat × SeqRecord) :
    chloroWrite acc p =
      if chloroKeep p.2 then
        { silva := acc.silva ++ silvaRowC p
          gg := acc.gg ++ ggRowC p
          fasta := acc.fasta ++ fastaChunkC p }
      else acc := rfl

/-- Concatenation distributes over list append. -/
theorem concatAll_append (a b : List String) :
    concatAll (a ++ b) = concatAll a ++ concatAll b := by
  induction a with
  | nil => simp [concatAll, String.empty_append]
  | cons s ss ih => simp [concatAll, ih, String.append_assoc]

/-- Running the mitochondria loop from an arbitrary file state appends
exactly one FASTA chunk and one row per mapping file for each retained
record, in list order. -/
theorem foldl_mitoWrite (l : List (Nat × SeqRecord)) (acc : OutFiles) :
    l.foldl mitoWrite acc =
      { silva := acc.silva ++ concatAll ((l.filter fun p => mitoKeep p.2).map silvaRowM)
        gg := acc.gg ++ concatAll ((l.filter fun p => mitoKeep p.2).map ggRowM)
        fasta := acc.fasta ++ concatAll ((l.filter fun p => mitoKeep p.2).map fastaChunkM) } := by
  induction l generalizing acc with
  | nil => simp [concatAll, String.append_empty]
  | cons x xs ih =>
    rw [List.foldl_cons, mitoWrite_eq]
    cases hk : mitoKeep x.2 with
    | false =>
      rw [if_neg (by simp [hk]), ih]
      simp [List.filter_cons, hk]
    | true =>
      rw [if_pos rfl, ih]
      simp [List.filter_cons, hk, concatAll, String.append_assoc]

/-- Running the chloroplast loop from an arbitrary file state appends
exactly one FASTA chunk and one row per mapping file for each retained
record, in list order. -/
theorem foldl_chloroWrite (l : List (Nat × SeqRecord)) (acc : OutFiles) :
    l.foldl chloroWrite acc =
      { silva := acc.silva ++ concatAll ((l.filter fun p => chloroKeep p.2).map silvaRowC)
        gg := acc.gg ++ concatAll ((l.filter fun p => chloroKeep p.2).map ggRowC)
        fasta := acc.fasta ++ concatAll ((l.filter fun p => chloroKeep p.2).map fastaChunkC) } := by
  induction l generalizing acc with
  | nil => simp [concatAll, String.append_empty]
  | cons x xs ih =>
    rw [List.foldl_cons, chloroWrite_eq]
    cases hk : chloroKeep x.2 with
    | false =>
      rw [if_neg (by simp [hk]), ih]
      simp [List.filter_cons, hk]
    | true =>
      rw [if_pos rfl, ih]
      simp [List.filter_cons, hk, concatAll, String.append_assoc]

/-- The three output files of a run, as header plus concatenation of the
per record texts, mitochondria before chloroplast, source order kept. -/
theorem supplement_eq (mito chloro : List SeqRecord) :
    supplement mito chloro =
      { silva := tsvHeader ++ concatAll (silvaRows mito chloro)
        gg := tsvHeader ++ concatAll (ggRows mito chloro)
        fasta := concatAll (fastaEntries mito chloro) } := by
  rw [supplement, foldl_mitoWrite, foldl_chloroWrite]
  simp [silvaRows, ggRows, fastaEntries, mitoRetained, chloroRetained, concatAll_append,
    String.append_assoc, tsvHeader, initFiles, String.empty_append]

/-- The FASTA chunk of a retained mitochondria record decomposed into
header marker, synthetic identifier and sequence. -/
theorem fastaChunkM_decomp (p : Nat × SeqRecord) :
    fastaChunkM p = ">" ++ mitoId p.1 ++ "\n" ++ p.2.seq ++ "\n" := by
  have h : (">metaxa2_mitochondria_" : String) = ">" ++ "metaxa2_mitochondria_" := by decide
  simp only [fastaChunkM, mitoId, String.append_assoc]
  conv_rhs => rw [← String.append_assoc, ← h]

/-- The FASTA chunk of a retained chloroplast record decomposed into
header marker, synthetic identifier and sequence. -/
theorem fastaChunkC_decomp (p : Nat × SeqRecord) :
    fastaChunkC p = ">" ++ chloroId p.1 ++ "\n" ++ p.2.seq ++ "\n" := by
  have h : (">phytoref_chloroplast_" : String) = ">" ++ "phytoref_chloroplast_" := by decide
  simp only [fastaChunkC, chloroId, String.append_assoc]
  conv_rhs => rw [← String.append_assoc, ← h]

/-- The Silva mitochondria row decomposed into identifier, tab, fixed
rank string and species field. -/
theorem silvaRowM_decomp (p : Nat × SeqRecord) :
    silvaRowM p = mitoId p.1 ++ "\t" ++ silvaMitoRank ++ mitoSpecific p.2 ++ "\n" := by
  have h : ("\td__Bacteria; p__Proteobacteria; c__Alphaproteobacteria; o__Rickettsiales; f__Mitochondria; g__Mitochondria; s__" : String) = "\t" ++ silvaMitoRank := by decide
  simp only [silvaRowM, mitoId, mitoSpecific]
  rw [h]
  simp [String.append_assoc]

/-- The Greengenes mitochondria row decomposed into identifier, tab,
fixed rank string and species field. -/
theorem ggRowM_decomp (p : Nat × SeqRecord) :
    ggRowM p = mitoId p.1 ++ "\t" ++ ggMitoRank ++ mitoSpecific p.2 ++ "\n" := by
  have h : ("\tk__Bacteria; p__Proteobacteria; c__Alphaproteobacteria; o__Rickettsiales; f__mitochondria; g__Mitochondria; s__" : String) = "\t" ++ ggMitoRank := by decide
  simp only [ggRowM, mitoId, mitoSpecific]
  rw [h]
  simp [String.append_assoc]

/-- The Silva chloroplast row decomposed into identifier, tab, fixed rank
string and species field. -/
theorem silvaRowC_decomp (p : Nat × SeqRecord) :
    silvaRowC p = chloroId p.1 ++ "\t" ++ silvaChloroRank ++ chloroSpecific p.2 ++ "\n" := by
  have h : ("\td__Bacteria; p__Cyanobacteria; c__Cyanobacteriia; o__Chloroplast; f__Chloroplast; g__Chloroplast; s__" : String) = "\t" ++ silvaChloroRank := by decide
  simp only [silvaRowC, chloroId, chloroSpecific]
  rw [h]
  simp [String.append_assoc]

/-- The Greengenes chloroplast row decomposed into identifier, tab, fixed
rank string and species field. -/
theorem ggRowC_decomp (p : Nat × SeqRecord) :
    ggRowC p = chloroId p.1 ++ "\t" ++ ggChloroRank ++ chloroSpecific p.2 ++ "\n" := by
  have h : ("\tk__Bacteria; p__Cyanobacteria; c__Chloroplast; o__Chloroplast; f__Chloroplast; g__Chloroplast; s__" : String) = "\t" ++ ggChloroRank := by decide
  simp only [ggRowC, chloroId, chloroSpecific]
  rw [h]
  simp [String.append_assoc]

/-- Zipping two maps over the same list is the map of the combined
function. -/
theorem zipWith_map_same {α β γ δ : Type} (f : β → γ → δ) (g : α → β) (h : α → γ) :
    ∀ l : List α, List.zipWith f (l.map g) (l.map h) = l.map fun x => f (g x) (h x)
  | [] => rfl
  | x :: xs => by simp [zipWith_map_same f g h xs]

/-- All synthetic feature identifiers of one run are pairwise distinct. -/
theorem featureIds_nodup (mito chloro : List SeqRecord) :
    (featureIds mito chloro).Nodup := by
  rw [featureIds, List.nodup_append]
  refine ⟨?_, ?_, ?_⟩
  · have h1 : ((mitoRetained mito).map fun p => mitoId p.1) =
        ((mitoRetained mito).map Prod.fst).map mitoId := by
      rw [List.map_map]
      rfl
    rw [h1]
    exact ((((List.filter_sublist _).map Prod.fst).nodup
      (List.nodup_enum_map_fst _))).map mitoId_injective
  · have h1 : ((chloroRetained chloro).map fun p => chloroId p.1) =
        ((chloroRetained chloro).map Prod.fst).map chloroId := by
      rw [List.map_map]
      rfl
    rw [h1]
    exact ((((List.filter_sublist _).map Prod.fst).nodup
      (List.nodup_enum_map_fst _))).map chloroId_injective
  · intro a ha hb
    rw [List.mem_map] at ha hb
    obtain ⟨p, _, hp⟩ := ha
    obtain ⟨q, _, hq⟩ := hb
    exact mitoId_ne_chloroId p.1 q.1 (hp.trans hq.symm)

/-- C1: a record occurs in the retained set of its category exactly when
it is kept and sits at that zero based position among all records of its
own input file, enumerated independently per file so filtered out records
leave index gaps; its FASTA entry and mapping rows carry the synthetic
identifier built from that position. -/
theorem claim1_synthetic_identifiers (mito chloro : List SeqRecord) (i : Nat) (r : SeqRecord) :
    ((i, r) ∈ mitoRetained mito ↔ mito[i]? = some r ∧ mitoKeep r = true)
  ∧ ((i, r) ∈ chloroRetained chloro ↔ chloro[i]? = some r ∧ chloroKeep r = true)
  ∧ fastaChunkM (i, r) = ">" ++ mitoId i ++ "\n" ++ r.seq ++ "\n"
  ∧ silvaRowM (i, r) = mitoId i ++ "\t" ++ silvaMitoRank ++ mitoSpecific r ++ "\n"
  ∧ fastaChunkC (i, r) = ">" ++ chloroId i ++ "\n" ++ r.seq ++ "\n"
  ∧ silvaRowC (i, r) = chloroId i ++ "\t" ++ silvaChloroRank ++ chloroSpecific r ++ "\n" := by
  refine ⟨?_, ?_, fastaChunkM_decomp (i, r), silvaRowM_decomp (i, r),
    fastaChunkC_decomp (i, r), silvaRowC_decomp (i, r)⟩
  · simp [mitoRetained, List.mem_filter, List.mem_enum_iff_getElem?]
  · simp [chloroRetained, List.mem_filter, List.mem_enum_iff_getElem?]

/-- C2: the combined FASTA is the concatenation of exactly one entry per
retained record, all mitochondria entries before all chloroplast entries
with source order kept inside each category, and each mapping file is the
header row followed by exactly one data row per retained record in the
same order, with matching per category counts. -/
theorem claim2_output_shape (mito chloro : List SeqRecord) :
    (supplement mito chloro).fasta = concatAll (fastaEntries mito chloro)
  ∧ (supplement mito chloro).silva = tsvHeader ++ concatAll (silvaRows mito chloro)
  ∧ (supplement mito chloro).gg = tsvHeader ++ concatAll (ggRows mito chloro)
  ∧ (silvaRows mito chloro).length = (fastaEntries mito chloro).length
  ∧ (ggRows mito chloro).length = (fastaEntries mito chloro).length
  ∧ ((mitoRetained mito).map silvaRowM).length = ((mitoRetained mito).map fastaChunkM).length
  ∧ ((chloroRetained chloro).map silvaRowC).length =
      ((chloroRetained chloro).map fastaChunkC).length
  ∧ ((mitoRetained mito).map ggRowM).length = ((mitoRetained mito).map fastaChunkM).length
  ∧ ((chloroRetained chloro).map ggRowC).length =
      ((chloroRetained chloro).map fastaChunkC).length := by
  refine ⟨?_, ?_, ?_, ?_, ?_, ?_, ?_, ?_, ?_⟩ <;>
    simp [supplement_eq, silvaRows, ggRows, fastaEntries]

/-- C3: a mitochondria record is retained exactly when its description
contains the substring mitochondria or the substring Mitochondria, and a
record that matches neither leaves all three output files unchanged. -/
theorem claim3_mitochondria_filter (mito : List SeqRecord) (i : Nat) (r : SeqRecord)
    (h : mito[i]? = some r) :
    ((i, r) ∈ mitoRetained mito ↔
      (pyIn "mitochondria" r.description || pyIn "Mitochondria" r.description) = true)
  ∧ ((pyIn "mitochondria" r.description || pyIn "Mitochondria" r.description) = false →
      ∀ acc : OutFiles, mitoWrite acc (i, r) = acc) := by
  constructor
  · simp [mitoRetained, List.mem_filter, List.mem_enum_iff_getElem?, h, mitoKeep]
  · intro hf acc
    simp [mitoWrite, hf]

/-- Witness for C3 at a concrete record containing neither substring. -/
theorem claim3_witness : mitoWrite initFiles (0, dropMitoRec) = initFiles :=
  (claim3_mitochondria_filter [dropMitoRec] 0 dropMitoRec (by decide)).2 (by decide) initFiles

/-- C4: a chloroplast record is retained exactly when its sequence does
not contain the placeholder substring, and a record containing it leaves
all three output files unchanged. -/
theorem claim4_chloroplast_filter (chloro : List SeqRecord) (i : Nat) (r : SeqRecord)
    (h : chloro[i]? = some r) :
    ((i, r) ∈ chloroRetained chloro ↔ pyIn "XXXXXXXXXX" r.seq = false)
  ∧ (pyIn "XXXXXXXXXX" r.seq = true → ∀ acc : OutFiles, chloroWrite acc (i, r) = acc) := by
  constructor
  · simp [chloroRetained, List.mem_filter, List.mem_enum_iff_getElem?, h, chloroKeep]
  · intro hf acc
    simp [chloroWrite, hf]

/-- Witness for C4 at a concrete record with the placeholder sequence. -/
theorem claim4_witness : chloroWrite initFiles (0, dropChloroRec) = initFiles :=
  (claim4_chloroplast_filter [dropChloroRec] 0 dropChloroRec (by decide)).2 (by decide) initFiles

/-- C5: the species field of a retained record is the verbatim last
segment of its description split on the semicolon for mitochondria and on
the vertical bar for chloroplast, and each mapping file consists of the
header followed by rows of exactly the form identifier, tab, fixed rank
string of that convention immediately followed by the species field, then
a newline. -/
theorem claim5_species_field_rows (mito chloro : List SeqRecord) :
    (∀ r : SeqRecord, mitoSpecific r = String.mk ((splitOnChar ';' r.description.data).getLastD []))
  ∧ (∀ r : SeqRecord,
      chloroSpecific r = String.mk ((splitOnChar '|' r.description.data).getLastD []))
  ∧ (supplement mito chloro).silva = tsvHeader ++ concatAll
      ((mitoRetained mito).map (fun p => mitoId p.1 ++ "\t" ++ silvaMitoRank ++ mitoSpecific p.2 ++ "\n") ++
        (chloroRetained chloro).map fun p =>
          chloroId p.1 ++ "\t" ++ silvaChloroRank ++ chloroSpecific p.2 ++ "\n")
  ∧ (supplement mito chloro).gg = tsvHeader ++ concatAll
      ((mitoRetained mito).map (fun p => mitoId p.1 ++ "\t" ++ ggMitoRank ++ mitoSpecific p.2 ++ "\n") ++
        (chloroRetained chloro).map fun p =>
          chloroId p.1 ++ "\t" ++ ggChloroRank ++ chloroSpecific p.2 ++ "\n") := by
  refine ⟨fun r => rfl, fun r => rfl, ?_, ?_⟩
  · have h1 : silvaRowM = fun p : Nat × SeqRecord =>
        mitoId p.1 ++ "\t" ++ silvaMitoRank ++ mitoSpecific p.2 ++ "\n" :=
      funext silvaRowM_decomp
    have h2 : silvaRowC = fun p : Nat × SeqRecord =>
        chloroId p.1 ++ "\t" ++ silvaChloroRank ++ chloroSpecific p.2 ++ "\n" :=
      funext silvaRowC_decomp
    rw [supplement_eq]
    show tsvHeader ++ concatAll (silvaRows mito chloro) = _
    rw [silvaRows, h1, h2]
  · have h1 : ggRowM = fun p : Nat × SeqRecord =>
        mitoId p.1 ++ "\t" ++ ggMitoRank ++ mitoSpecific p.2 ++ "\n" :=
      funext ggRowM_decomp
    have h2 : ggRowC = fun p : Nat × SeqRecord =>
        chloroId p.1 ++ "\t" ++ ggChloroRank ++ chloroSpecific p.2 ++ "\n" :=
      funext ggRowC_decomp
    rw [supplement_eq]
    show tsvHeader ++ concatAll (ggRows mito chloro) = _
    rw [ggRows, h1, h2]

/-- C6: the transform is deterministic, two runs on the same input record
sequences produce identical output file contents. -/
theorem claim6_determinism (mito chloro : List SeqRecord) (out1 out2 : OutFiles)
    (h1 : out1 = supplement mito chloro) (h2 : out2 = supplement mito chloro) :
    out1 = out2 := h1.trans h2.symm

/-- Witness for C6 on a concrete input. -/
theorem claim6_witness : supplement [exampleMitoRec] [] = supplement [exampleMitoRec] [] :=
  claim6_determinism [exampleMitoRec] [] (supplement [exampleMitoRec] [])
    (supplement [exampleMitoRec] []) rfl rfl

/-- C7: empty inputs raise no error and give empty output sections, with
both inputs empty the FASTA is empty and each mapping file holds only the
header row; an empty category contributes nothing to any output list. -/
theorem claim7_empty_inputs :
    (supplement [] []).fasta = ""
  ∧ (supplement [] []).silva = "Feature ID\tTaxon\n"
  ∧ (supplement [] []).gg = "Feature ID\tTaxon\n"
  ∧ (∀ chloro : List SeqRecord, fastaEntries [] chloro = (chloroRetained chloro).map fastaChunkC)
  ∧ (∀ mito : List SeqRecord, fastaEntries mito [] = (mitoRetained mito).map fastaChunkM)
  ∧ (∀ chloro : List SeqRecord, silvaRows [] chloro = (chloroRetained chloro).map silvaRowC)
  ∧ (∀ mito : List SeqRecord, silvaRows mito [] = (mitoRetained mito).map silvaRowM)
  ∧ (∀ chloro : List SeqRecord, ggRows [] chloro = (chloroRetained chloro).map ggRowC)
  ∧ (∀ mito : List SeqRecord, ggRows mito [] = (mitoRetained mito).map ggRowM) := by
  refine ⟨rfl, rfl, rfl, ?_, ?_, ?_, ?_, ?_, ?_⟩ <;>
    intro l <;> simp [fastaEntries, silvaRows, ggRows, mitoRetained, chloroRetained]

/-- C8: on the specification example record at source position zero the
retention test succeeds, the species field is Homo sapiens, and the Silva
row carries the identifier metaxa2_mitochondria_0 with a taxonomy label
beginning with the Bacteria domain prefix and ending with the species. -/
theorem claim8_concrete_example :
    mitoKeep exampleMitoRec = true
  ∧ mitoSpecific exampleMitoRec = "Homo sapiens"
  ∧ mitoId 0 = "metaxa2_mitochondria_0"
  ∧ silvaRowM (0, exampleMitoRec) =
      "metaxa2_mitochondria_0" ++ "\t" ++ silvaMitoRank ++ "Homo sapiens" ++ "\n"
  ∧ List.IsPrefix "d__Bacteria; ".data (silvaMitoRank ++ "Homo sapiens").data
  ∧ List.IsSuffix "s__Homo sapiens".data (silvaMitoRank ++ "Homo sapiens").data
  ∧ (supplement [exampleMitoRec] []).silva =
      "Feature ID\tTaxon\n" ++
        "metaxa2_mitochondria_0\td__Bacteria; p__Proteobacteria; c__Alphaproteobacteria; o__Rickettsiales; f__Mitochondria; g__Mitochondria; s__Homo sapiens\n" := by
  exact ⟨by decide, by decide, by decide, by decide, by decide, by decide, by decide⟩

/-- C9: when the description holds no occurrence of the split delimiter,
the species field is the whole description, and a kept record is emitted
normally, appending exactly its FASTA chunk and its two mapping rows. -/
theorem claim9_missing_delimiter (r : SeqRecord) :
    (';' ∉ r.description.data → mitoSpecific r = r.description)
  ∧ ('|' ∉ r.description.data → chloroSpecific r = r.description)
  ∧ (mitoKeep r = true → ∀ (i : Nat) (acc : OutFiles),
      mitoWrite acc (i, r) =
        { silva := acc.silva ++ silvaRowM (i, r)
          gg := acc.gg ++ ggRowM (i, r)
          fasta := acc.fasta ++ fastaChunkM (i, r) })
  ∧ (chloroKeep r = true → ∀ (i : Nat) (acc : OutFiles),
      chloroWrite acc (i, r) =
        { silva := acc.silva ++ silvaRowC (i, r)
          gg := acc.gg ++ ggRowC (i, r)
          fasta := acc.fasta ++ fastaChunkC (i, r) }) := by
  refine ⟨?_, ?_, ?_, ?_⟩
  · intro h
    rw [mitoSpecific, lastFieldOn, splitOnChar_of_not_mem ';' _ h]
    rfl
  · intro h
    rw [chloroSpecific, lastFieldOn, splitOnChar_of_not_mem '|' _ h]
    rfl
  · intro hk i acc
    rw [mitoWrite_eq, if_pos hk]
  · intro hk i acc
    rw [chloroWrite_eq, if_pos hk]

/-- Witness for C9 at a concrete record without delimiters. -/
theorem claim9_witness : mitoSpecific noDelimRec = noDelimRec.description :=
  (claim9_missing_delimiter noDelimRec).1 (by decide)

/-- C10: the two mapping outputs carry the same sequence of feature
identifiers in the same row order, differing only in the taxonomy text
after the tab, and all identifiers of one run are pairwise distinct. -/
theorem claim10_feature_id_agreement (mito chloro : List SeqRecord) :
    silvaRows mito chloro =
      List.zipWith (fun a b => a ++ "\t" ++ b) (featureIds mito chloro) (silvaTaxa mito chloro)
  ∧ ggRows mito chloro =
      List.zipWith (fun a b => a ++ "\t" ++ b) (featureIds mito chloro) (ggTaxa mito chloro)
  ∧ (featureIds mito chloro).Nodup := by
  refine ⟨?_, ?_, featureIds_nodup mito chloro⟩
  · rw [featureIds, silvaTaxa, silvaRows,
      List.zipWith_append _ _ _ _ _ (by simp), zipWith_map_same, zipWith_map_same]
    congr 1
    · refine List.map_congr_left fun p _ => ?_
      rw [silvaRowM_decomp]
      simp [String.append_assoc]
    · refine List.map_congr_left fun p _ => ?_
      rw [silvaRowC_decomp]
      simp [String.append_assoc]
  · rw [featureIds, ggTaxa, ggRows,
      List.zipWith_append _ _ _ _ _ (by simp), zipWith_map_same, zipWith_map_same]
    congr 1
    · refine List.map_congr_left fun p _ => ?_
      rw [ggRowM_decomp]
      simp [String.append_assoc]
    · refine List.map_congr_left fun p _ => ?_
      rw [ggRowC_decomp]
      simp [String.append_assoc]

end OrganelleRemoval
